import Mathlib

/-!
Verification development for the dual-stream fine-tuning step of the DLW
repository (`defrcn/engine/defaults.py`).

The embedding models:
* a model's parameter/buffer store (`Store`), with per-entry optional
  gradient buffers, as seen by `state_dict(keep_vars=True)` /
  `named_parameters()`;
* `flatten_grads` and `assign_grads` over that store;
* the pure arithmetic of `DefaultTrainer.run_step` (EMA update, convergence
  signal, angle signal, gradient combination) over exact rationals;
* `run_step` itself as a function from an environment (the outcomes of the
  external, fallible collaborators: data loaders, model forward/backward,
  optimizer step) and a trainer state to `Except Unit TrainerState`, where
  `Except.error` models an uncaught Python exception propagating to the
  caller.
-/

namespace DLW

/-- One key of `model.state_dict(keep_vars=True)`: a parameter or buffer
tensor.  `isParam` says whether it also appears in `named_parameters()`
(buffers such as batch-norm running statistics do not); `statName` says
whether the key contains `running_mean`, `running_var` or
`num_batches_tracked`; `size` is `numel()`; `value` is the flattened tensor
data; `grad` is the optional gradient buffer. -/
structure Entry where
  isParam : Bool
  statName : Bool
  size : Nat
  value : List ℚ
  grad : Option (List ℚ)
deriving DecidableEq, Repr

/-- The ordered parameter store of a model, in `state_dict` enumeration
order (which lists each module's parameters in the same relative order as
`named_parameters()`). -/
abbrev Store := List Entry

/-- `flatten_grads(model)`: concatenate, over `named_parameters()` in order,
the flattened gradient of every parameter that currently has one; parameters
without a gradient are skipped entirely, and buffers never appear. -/
def flatten_grads (s : Store) : List ℚ :=
  (s.map (fun e => if e.isParam then e.grad.getD [] else [])).flatten

/-- `assign_grads(model, grads)`: walk the `state_dict` keys in order,
skipping entries whose gradient is absent and entries whose name marks a
batch-norm running statistic; for each remaining entry take the next
`numel()`-sized slice of `grads` as its new gradient buffer.  The returned
`Bool` is `false` when the remaining vector is too short for some entry's
slice, where `.view(param_shape)` raises; entries already processed keep
their newly written buffers (the tensors are mutated in place), and later
entries are untouched. -/
def assign_grads : Store → List ℚ → Store × Bool
  | [], _ => ([], true)
  | e :: es, v =>
    if e.grad.isNone || e.statName then
      let r := assign_grads es v
      (e :: r.1, r.2)
    else if e.size ≤ v.length then
      let r := assign_grads es (v.drop e.size)
      ({ e with grad := some (v.take e.size) } :: r.1, r.2)
    else (e :: es, false)

/-- Total scalar count of the entries that currently carry a gradient. -/
def gradScalarCount (s : Store) : Nat :=
  ((s.filter (fun e => e.grad.isSome)).map (fun e => e.size)).sum

/-- `torch.dot` on flattened gradient vectors. -/
def dot (a b : List ℚ) : ℚ := (List.zipWith (· * ·) a b).sum

/-- `torch.square(torch.norm(g))`: in exact arithmetic the square of the
Euclidean norm is the sum of squares, i.e. `dot g g`. -/
def sqnorm (g : List ℚ) : ℚ := dot g g

/-- The EMA recurrence of `run_step`:
`self.ema_lb_old = self.beta * self.ema_lb_old + (1 - self.beta) * losses_base`. -/
def ema_update (beta ema_lb_old loss_base : ℚ) : ℚ :=
  beta * ema_lb_old + (1 - beta) * loss_base

/-- The convergence signal of `run_step`:
`general_converge = 3 * (self.ema_lb_old - 0.2) / self.ema_lb_old`. -/
def convergence_signal (ema : ℚ) : ℚ := 3 * (ema - 1/5) / ema

/-- The alignment signal of `run_step`:
`angle_base = 1 - torch.dot(grad_base, grad_novel) / torch.square(torch.norm(grad_base))`. -/
def angle_signal (grad_base grad_novel : List ℚ) : ℚ :=
  1 - dot grad_base grad_novel / sqnorm grad_base

/-- The combination step of `run_step`:
`dynamic_lambda = max(general_converge, angle_base)`;
`grad_base = dynamic_lambda * grad_base`; `new_grad = grad_base + grad_novel`. -/
def combine (grad_base grad_novel : List ℚ) (general_converge angle_base : ℚ) :
    List ℚ :=
  let dynamic_lambda := max general_converge angle_base
  List.zipWith (· + ·) (grad_base.map (fun x => dynamic_lambda * x)) grad_novel

/-- `optimizer.zero_grad()`: clear every gradient buffer. -/
def clearGrads (s : Store) : Store := s.map (fun e => { e with grad := none })

/-- The effect of a backward pass on the store: each entry receives the
gradient buffer the autograd engine produced for it (values are untouched;
backward only writes `.grad`). -/
def setGrads : Store → List (Option (List ℚ)) → Store
  | [], _ => []
  | es, [] => es
  | e :: es, g :: gs => { e with grad := g } :: setGrads es gs

/-- The mutable trainer attributes `run_step` reads and writes.
`DefaultTrainer.__init__` sets `ema_lb0 = 0`, `ema_lb = 0`,
`ema_lb_old = 0.45`, `beta = cfg.DYNAMIC.BETA`; `stepCount` counts calls of
`optimizer.step()`. -/
structure TrainerState where
  iter : Nat
  beta : ℚ
  ema_lb0 : ℚ
  ema_lb : ℚ
  ema_lb_old : ℚ
  store : Store
  stepCount : Nat
deriving DecidableEq, Repr

/-- Outcomes of the external, fallible collaborators during one iteration:
drawing a batch from each loader, the model forward in each mode (producing
the values of the named-loss dict), the backward pass in each mode
(producing the gradient buffers it writes), and the optimizer step
(producing the parameter update it applies).  `Except.error` means the
operation raises. -/
structure Env where
  drawNovel : Except Unit Unit
  novelFwd : Except Unit (List ℚ)
  novelBwd : Except Unit (List (Option (List ℚ)))
  drawBase : Except Unit Unit
  baseFwd : Except Unit (List ℚ)
  baseBwd : Except Unit (List (Option (List ℚ)))
  stepRes : Except Unit (Store → Store)

/-- Store after `zero_grad` and the novel backward pass. -/
def storeAfterNovel (ts : TrainerState) (ngs : List (Option (List ℚ))) : Store :=
  setGrads (clearGrads ts.store) ngs

/-- Store after the second `zero_grad` and the base backward pass. -/
def storeAfterBase (ts : TrainerState) (ngs bgs : List (Option (List ℚ))) :
    Store :=
  setGrads (clearGrads (storeAfterNovel ts ngs)) bgs

/-- The combined gradient `new_grad` computed by `run_step` from the two
captured gradients, the EMA-derived convergence signal and the angle
signal. -/
def mixedGrad (ts : TrainerState) (ngs bgs : List (Option (List ℚ)))
    (loss_base : ℚ) : List ℚ :=
  let grad_novel := flatten_grads (storeAfterNovel ts ngs)
  let grad_base := flatten_grads (storeAfterBase ts ngs bgs)
  let ema_new := ema_update ts.beta ts.ema_lb_old loss_base
  combine grad_base grad_novel (convergence_signal ema_new)
    (angle_signal grad_base grad_novel)

/-- `DefaultTrainer.run_step`, one iteration.  Mirrors the source's control
flow: an immediate return when `self.iter > 8000`; `zero_grad`; the novel
batch draw (uncaught); the novel forward inside `try/except` (a silent
`return` on exception); the novel backward (uncaught); `zero_grad`; the base
draw/forward/backward (all uncaught); at `iter == 0` the initialization of
`ema_lb0` and `ema_lb` from `losses_base`; the EMA update of `ema_lb_old`;
the mix; and finally `assign_grads` plus `optimizer.step()` inside a second
`try/except` that swallows any exception (printing a diagnostic). -/
def run_step (env : Env) (ts : TrainerState) : Except Unit TrainerState :=
  if 8000 < ts.iter then .ok ts
  else
    match env.drawNovel with
    | .error e => .error e
    | .ok _ =>
      match env.novelFwd with
      | .error _ => .ok { ts with store := clearGrads ts.store }
      | .ok _ =>
        match env.novelBwd with
        | .error e => .error e
        | .ok ngs =>
          match env.drawBase with
          | .error e => .error e
          | .ok _ =>
            match env.baseFwd with
            | .error e => .error e
            | .ok baseLosses =>
              match env.baseBwd with
              | .error e => .error e
              | .ok bgs =>
                let loss_base := baseLosses.sum
                let ts1 :=
                  if ts.iter = 0 then
                    { ts with ema_lb0 := loss_base, ema_lb := loss_base }
                  else ts
                let ema_new := ema_update ts.beta ts.ema_lb_old loss_base
                let s4 := storeAfterBase ts ngs bgs
                let r := assign_grads s4 (mixedGrad ts ngs bgs loss_base)
                if r.2 then
                  match env.stepRes with
                  | .error _ =>
                    .ok { ts1 with store := r.1, ema_lb_old := ema_new }
                  | .ok stepFn =>
                    .ok { ts1 with store := stepFn r.1, ema_lb_old := ema_new,
                                   stepCount := ts1.stepCount + 1 }
                else .ok { ts1 with store := r.1, ema_lb_old := ema_new }

/-! ### Helper lemmas: parameter values are untouched by gradient plumbing -/

theorem values_clearGrads (s : Store) :
    (clearGrads s).map Entry.value = s.map Entry.value := by
  simp [clearGrads, List.map_map]

theorem values_setGrads (s : Store) (gs : List (Option (List ℚ))) :
    (setGrads s gs).map Entry.value = s.map Entry.value := by
  induction s generalizing gs with
  | nil => cases gs <;> rfl
  | cons e es ih =>
    cases gs with
    | nil => rfl
    | cons g gs => simp [setGrads, ih]

theorem values_assign_grads (s : Store) (v : List ℚ) :
    (assign_grads s v).1.map Entry.value = s.map Entry.value := by
  induction s generalizing v with
  | nil => rfl
  | cons e es ih =>
    by_cases hs : e.grad.isNone || e.statName
    · simp [assign_grads, hs, ih]
    · by_cases hl : e.size ≤ v.length
      · simp [assign_grads, hs, hl, ih]
      · simp [assign_grads, hs, hl]

theorem values_storeAfterBase (ts : TrainerState)
    (ngs bgs : List (Option (List ℚ))) :
    (storeAfterBase ts ngs bgs).map Entry.value = ts.store.map Entry.value := by
  unfold storeAfterBase storeAfterNovel
  rw [values_setGrads, values_clearGrads, values_setGrads, values_clearGrads]

/-! ### Claim theorems -/

/-- C1: the combination step computes `dynamic_lambda = max(general_converge,
angle_base)` and returns, elementwise, `dynamic_lambda * grad_base +
grad_novel`, with no clamping or normalization of `dynamic_lambda`; and
`dynamic_lambda >= general_converge` holds by construction of the max. -/
theorem combine_lambda_mix (grad_base grad_novel : List ℚ)
    (general_converge angle_base : ℚ) :
    combine grad_base grad_novel general_converge angle_base =
      List.zipWith (fun x y => max general_converge angle_base * x + y)
        grad_base grad_novel ∧
    general_converge ≤ max general_converge angle_base := by
  refine ⟨?_, le_max_left _ _⟩
  unfold combine
  rw [List.zipWith_map_left]

/-- C4: once the iteration counter exceeds 8000, `run_step` returns
immediately: the whole trainer state (gradient buffers, parameter values,
optimizer step count, EMA scalars) is unchanged, for every environment. -/
theorem iteration_ceiling (env : Env) (ts : TrainerState)
    (h : 8000 < ts.iter) : run_step env ts = .ok ts := by
  unfold run_step
  simp [h]

def ceilingEnv : Env :=
  { drawNovel := .ok (), novelFwd := .ok [1/2], novelBwd := .ok [some [1]],
    drawBase := .ok (), baseFwd := .ok [1/3], baseBwd := .ok [some [2]],
    stepRes := .ok id }

def ceilingTs : TrainerState :=
  { iter := 8001, beta := 9/10, ema_lb0 := 0, ema_lb := 0, ema_lb_old := 9/20,
    store := [{ isParam := true, statName := false, size := 1,
                value := [7], grad := none }],
    stepCount := 3 }

/-- Witness for C4 at iteration index 8001. -/
theorem iteration_ceiling_witness : run_step ceilingEnv ceilingTs = .ok ceilingTs :=
  iteration_ceiling ceilingEnv ceilingTs (by decide)

/-- When every external operation of the iteration succeeds, `run_step`
returns a state whose EMA scalars follow the source: `ema_lb_old` is updated
by the recurrence on every iteration, while `ema_lb0` and `ema_lb` are
overwritten with `losses_base` exactly when `iter == 0`. -/
theorem run_step_ema_fields (env : Env) (ts : TrainerState)
    (nls : List ℚ) (ngs : List (Option (List ℚ))) (bls : List ℚ)
    (bgs : List (Option (List ℚ)))
    (hiter : ts.iter ≤ 8000)
    (h1 : env.drawNovel = .ok ()) (h2 : env.novelFwd = .ok nls)
    (h3 : env.novelBwd = .ok ngs) (h4 : env.drawBase = .ok ())
    (h5 : env.baseFwd = .ok bls) (h6 : env.baseBwd = .ok bgs) :
    ∃ s, run_step env ts = .ok s ∧
      s.ema_lb_old = ema_update ts.beta ts.ema_lb_old bls.sum ∧
      s.ema_lb0 = (if ts.iter = 0 then bls.sum else ts.ema_lb0) ∧
      s.ema_lb = (if ts.iter = 0 then bls.sum else ts.ema_lb) := by
  have hle : ¬ 8000 < ts.iter := not_lt.mpr hiter
  unfold run_step
  rw [if_neg hle, h1, h2, h3, h4, h5, h6]
  by_cases h0 : ts.iter = 0 <;>
    by_cases hr : (assign_grads (storeAfterBase ts ngs bgs)
        (mixedGrad ts ngs bgs bls.sum)).2 <;>
      cases hsr : env.stepRes <;>
        simp [h0, hr, hsr]

/-- C6: on every successful iteration the EMA update computes
`ema_lb_old := beta * ema_lb_old + (1 - beta) * loss_base` and the new value
is stored; concretely, `ema_update 0.9 0.5 0.3 = 0.48`. -/
theorem ema_recurrence_spec (env : Env) (ts : TrainerState)
    (nls : List ℚ) (ngs : List (Option (List ℚ))) (bls : List ℚ)
    (bgs : List (Option (List ℚ)))
    (hiter : ts.iter ≤ 8000)
    (h1 : env.drawNovel = .ok ()) (h2 : env.novelFwd = .ok nls)
    (h3 : env.novelBwd = .ok ngs) (h4 : env.drawBase = .ok ())
    (h5 : env.baseFwd = .ok bls) (h6 : env.baseBwd = .ok bgs) :
    (∃ s, run_step env ts = .ok s ∧
      s.ema_lb_old = ts.beta * ts.ema_lb_old + (1 - ts.beta) * bls.sum) ∧
    ema_update (9/10) (1/2) (3/10) = 12/25 := by
  refine ⟨?_, by norm_num [ema_update]⟩
  obtain ⟨s, hs, he, -, -⟩ :=
    run_step_ema_fields env ts nls ngs bls bgs hiter h1 h2 h3 h4 h5 h6
  exact ⟨s, hs, he⟩

def emaEnv : Env :=
  { drawNovel := .ok (), novelFwd := .ok [1/2], novelBwd := .ok [],
    drawBase := .ok (), baseFwd := .ok [3/10], baseBwd := .ok [],
    stepRes := .ok id }

def emaTs : TrainerState :=
  { iter := 5, beta := 9/10, ema_lb0 := 0, ema_lb := 0, ema_lb_old := 1/2,
    store := [], stepCount := 0 }

/-- Witness for C6: beta 0.9, prior EMA 0.5, base loss 0.3. -/
theorem ema_recurrence_spec_witness :
    (∃ s, run_step emaEnv emaTs = .ok s ∧
      s.ema_lb_old =
        emaTs.beta * emaTs.ema_lb_old + (1 - emaTs.beta) * List.sum [(3/10 : ℚ)]) ∧
    ema_update (9/10) (1/2) (3/10) = 12/25 :=
  ema_recurrence_spec emaEnv emaTs [1/2] [] [3/10] [] (by decide)
    rfl rfl rfl rfl rfl rfl

def c3Env : Env :=
  { drawNovel := .ok (), novelFwd := .ok [1/2], novelBwd := .ok [],
    drawBase := .ok (), baseFwd := .ok [3/10], baseBwd := .ok [],
    stepRes := .ok id }

def c3Ts : TrainerState :=
  { iter := 0, beta := 9/10, ema_lb0 := 0, ema_lb := 0, ema_lb_old := 9/20,
    store := [], stepCount := 0 }

/-- Counterexample to C3: a first iteration (iter 0, constructor values
`ema_lb_old = 0.45`, `beta = 0.9`) with base loss 0.3.  `ema_lb0` and
`ema_lb` are indeed set to the loss, but `ema_lb_old` is updated by the EMA
recurrence (yielding 0.435), not set to the loss as the claim states. -/
theorem first_iteration_cex :
    ∃ s, run_step c3Env c3Ts = .ok s ∧ s.ema_lb0 = 3/10 ∧ s.ema_lb = 3/10 ∧
      s.ema_lb_old = 87/200 ∧ s.ema_lb_old ≠ 3/10 := by
  obtain ⟨s, hs, he, h7, h8⟩ :=
    run_step_ema_fields c3Env c3Ts [1/2] [] [3/10] [] (by norm_num [c3Ts])
      rfl rfl rfl rfl rfl rfl
  have he' : s.ema_lb_old = 87/200 := by rw [he]; norm_num [ema_update, c3Ts]
  refine ⟨s, hs, ?_, ?_, he', by rw [he']; norm_num⟩
  · rw [h7]; norm_num [c3Ts]
  · rw [h8]; norm_num [c3Ts]

/-- C3 amended: on the first iteration of a run (iter 0), `ema_lb0` and
`ema_lb` are set directly to that iteration's base loss, while `ema_lb_old`
is updated by the usual EMA recurrence from its constructor value 0.45. -/
theorem first_iteration_init (env : Env) (ts : TrainerState)
    (nls : List ℚ) (ngs : List (Option (List ℚ))) (bls : List ℚ)
    (bgs : List (Option (List ℚ)))
    (h0 : ts.iter = 0)
    (h1 : env.drawNovel = .ok ()) (h2 : env.novelFwd = .ok nls)
    (h3 : env.novelBwd = .ok ngs) (h4 : env.drawBase = .ok ())
    (h5 : env.baseFwd = .ok bls) (h6 : env.baseBwd = .ok bgs) :
    ∃ s, run_step env ts = .ok s ∧ s.ema_lb0 = bls.sum ∧ s.ema_lb = bls.sum ∧
      s.ema_lb_old = ema_update ts.beta ts.ema_lb_old bls.sum := by
  obtain ⟨s, hs, he, h7, h8⟩ :=
    run_step_ema_fields env ts nls ngs bls bgs (by simp [h0]) h1 h2 h3 h4 h5 h6
  rw [if_pos h0] at h7
  rw [if_pos h0] at h8
  exact ⟨s, hs, h7, h8, he⟩

/-- Witness for the amended C3 at a concrete first iteration. -/
theorem first_iteration_init_witness :
    ∃ s, run_step c3Env c3Ts = .ok s ∧ s.ema_lb0 = List.sum [(3/10 : ℚ)] ∧
      s.ema_lb = List.sum [(3/10 : ℚ)] ∧
      s.ema_lb_old = ema_update c3Ts.beta c3Ts.ema_lb_old (List.sum [(3/10 : ℚ)]) :=
  first_iteration_init c3Env c3Ts [1/2] [] [3/10] [] rfl rfl rfl rfl rfl rfl rfl

def c2Env : Env :=
  { drawNovel := .ok (), novelFwd := .ok [1/2], novelBwd := .error (),
    drawBase := .ok (), baseFwd := .ok [1/2], baseBwd := .ok [],
    stepRes := .ok id }

def c2Ts : TrainerState :=
  { iter := 5, beta := 9/10, ema_lb0 := 0, ema_lb := 0, ema_lb_old := 9/20,
    store := [{ isParam := true, statName := false, size := 1,
                value := [7], grad := none }],
    stepCount := 0 }

/-- Counterexample to C2: the `try/except` of the novel stage wraps only the
forward call.  Here every operation succeeds except the novel backward pass,
and `run_step` propagates the exception to the caller instead of aborting
the iteration silently. -/
theorem novel_backward_propagates_cex : run_step c2Env c2Ts = .error () := rfl

/-- C2 amended: only an exception raised by the novel forward pass is
caught; the iteration then aborts immediately with no parameter update
(parameter values are bit-identical, only the gradient buffers were cleared
by `zero_grad`, and the step count is unchanged) and no error reaches the
caller.  An exception while drawing the novel batch, or during the novel
backward pass, is not caught and propagates. -/
theorem novel_failure_policy (env : Env) (ts : TrainerState)
    (hiter : ts.iter ≤ 8000) :
    (env.drawNovel = .ok () → env.novelFwd = .error () →
      run_step env ts = .ok { ts with store := clearGrads ts.store } ∧
      (clearGrads ts.store).map Entry.value = ts.store.map Entry.value) ∧
    (env.drawNovel = .error () → run_step env ts = .error ()) ∧
    (∀ nls, env.drawNovel = .ok () → env.novelFwd = .ok nls →
      env.novelBwd = .error () → run_step env ts = .error ()) := by
  have hle : ¬ 8000 < ts.iter := not_lt.mpr hiter
  refine ⟨fun ha hb => ?_, fun ha => ?_, fun nls ha hb hc => ?_⟩
  · refine ⟨?_, values_clearGrads ts.store⟩
    unfold run_step
    rw [if_neg hle, ha, hb]
  · unfold run_step
    rw [if_neg hle, ha]
  · unfold run_step
    rw [if_neg hle, ha, hb, hc]

def c2FwdEnv : Env :=
  { drawNovel := .ok (), novelFwd := .error (), novelBwd := .ok [],
    drawBase := .ok (), baseFwd := .ok [], baseBwd := .ok [],
    stepRes := .ok id }

/-- Witness for the amended C2: a concrete novel-forward failure is
swallowed and leaves parameter values untouched. -/
theorem novel_failure_policy_witness :
    run_step c2FwdEnv c2Ts = .ok { c2Ts with store := clearGrads c2Ts.store } ∧
    (clearGrads c2Ts.store).map Entry.value = c2Ts.store.map Entry.value :=
  (novel_failure_policy c2FwdEnv c2Ts (by decide)).1 rfl rfl

/-- C10: an exception raised in the base-stream stage — drawing the base
batch, the base forward pass, or the base backward pass — is not caught
inside `run_step` and propagates to the caller. -/
theorem base_failure_propagates (env : Env) (ts : TrainerState)
    (nls : List ℚ) (ngs : List (Option (List ℚ)))
    (hiter : ts.iter ≤ 8000)
    (h1 : env.drawNovel = .ok ()) (h2 : env.novelFwd = .ok nls)
    (h3 : env.novelBwd = .ok ngs)
    (hfail : env.drawBase = .error () ∨ env.baseFwd = .error () ∨
      env.baseBwd = .error ()) :
    run_step env ts = .error () := by
  have hle : ¬ 8000 < ts.iter := not_lt.mpr hiter
  unfold run_step
  rw [if_neg hle, h1, h2, h3]
  rcases hfail with h | h | h
  · rw [h]
  · cases hdb : env.drawBase with
    | error e => cases e; rfl
    | ok u => cases u; rw [h]
  · cases hdb : env.drawBase with
    | error e => cases e; rfl
    | ok u =>
      cases u
      cases hbf : env.baseFwd with
      | error e => cases e; rfl
      | ok bls => rw [h]

def c10Env : Env :=
  { drawNovel := .ok (), novelFwd := .ok [1/2], novelBwd := .ok [],
    drawBase := .error (), baseFwd := .ok [], baseBwd := .ok [],
    stepRes := .ok id }

def c10Ts : TrainerState :=
  { iter := 7, beta := 9/10, ema_lb0 := 0, ema_lb := 0, ema_lb_old := 9/20,
    store := [], stepCount := 0 }

/-- Witness for C10: a concrete base-batch-draw failure propagates. -/
theorem base_failure_propagates_witness : run_step c10Env c10Ts = .error () :=
  base_failure_propagates c10Env c10Ts [1/2] [] (by decide) rfl rfl rfl
    (Or.inl rfl)

/-- C9: an exception during gradient assignment (the slice/`view` check of
`assign_grads` failing) or during `optimizer.step()` is caught by the second
`try/except` rather than propagated: `run_step` still returns normally, no
parameter update is applied (parameter values are unchanged), and the
optimizer step count does not advance, so training continues on the next
iteration. -/
theorem apply_failure_noop (env : Env) (ts : TrainerState)
    (nls : List ℚ) (ngs : List (Option (List ℚ))) (bls : List ℚ)
    (bgs : List (Option (List ℚ)))
    (hiter : ts.iter ≤ 8000)
    (h1 : env.drawNovel = .ok ()) (h2 : env.novelFwd = .ok nls)
    (h3 : env.novelBwd = .ok ngs) (h4 : env.drawBase = .ok ())
    (h5 : env.baseFwd = .ok bls) (h6 : env.baseBwd = .ok bgs)
    (hfail : env.stepRes = .error () ∨
      (assign_grads (storeAfterBase ts ngs bgs)
        (mixedGrad ts ngs bgs bls.sum)).2 = false) :
    ∃ s, run_step env ts = .ok s ∧
      s.store.map Entry.value = ts.store.map Entry.value ∧
      s.stepCount = ts.stepCount := by
  have hle : ¬ 8000 < ts.iter := not_lt.mpr hiter
  unfold run_step
  rw [if_neg hle, h1, h2, h3, h4, h5, h6]
  rcases hfail with hsr | hr
  · by_cases hr : (assign_grads (storeAfterBase ts ngs bgs)
        (mixedGrad ts ngs bgs bls.sum)).2 <;>
      by_cases h0 : ts.iter = 0 <;>
        simp [hr, hsr, h0, values_assign_grads, values_storeAfterBase]
  · by_cases h0 : ts.iter = 0 <;>
      simp [hr, h0, values_assign_grads, values_storeAfterBase]

def c9Env : Env :=
  { drawNovel := .ok (), novelFwd := .ok [1/2], novelBwd := .ok [],
    drawBase := .ok (), baseFwd := .ok [2/5], baseBwd := .ok [],
    stepRes := .error () }

def c9Ts : TrainerState :=
  { iter := 9, beta := 9/10, ema_lb0 := 0, ema_lb := 0, ema_lb_old := 9/20,
    store := [{ isParam := true, statName := false, size := 1,
                value := [5], grad := none }],
    stepCount := 4 }

/-- Witness for C9: a concrete optimizer-step failure is swallowed and
leaves parameter values and the step count unchanged. -/
theorem apply_failure_noop_witness :
    ∃ s, run_step c9Env c9Ts = .ok s ∧
      s.store.map Entry.value = c9Ts.store.map Entry.value ∧
      s.stepCount = c9Ts.stepCount :=
  apply_failure_noop c9Env c9Ts [1/2] [] [2/5] [] (by decide)
    rfl rfl rfl rfl rfl rfl (Or.inl rfl)

/-- Counterexample to C7: at `ema = -0.1` (nonzero and below 0.2) the
convergence signal is `3 * (-0.1 - 0.2) / (-0.1) = 9`, which is positive,
contradicting "negative when ema is below 0.2". -/
theorem convergence_signal_cex :
    (-1/10 : ℚ) ≠ 0 ∧ (-1/10 : ℚ) < 1/5 ∧
      convergence_signal (-1/10) = 9 ∧ 0 < convergence_signal (-1/10) := by
  norm_num [convergence_signal]

/-- C7 amended: for every nonzero `ema` the convergence signal equals
`3 * (ema - 0.2) / ema` and is 0 exactly when `ema = 0.2`; for positive
`ema` it is positive exactly when `ema > 0.2` and negative exactly when
`ema < 0.2`; for negative `ema` it is positive.  (At `ema == 0` the source
divides without a guard.) -/
theorem convergence_signal_props (ema : ℚ) (h : ema ≠ 0) :
    convergence_signal ema = 3 * (ema - 1/5) / ema ∧
    (convergence_signal ema = 0 ↔ ema = 1/5) ∧
    (0 < ema → ((0 < convergence_signal ema ↔ 1/5 < ema) ∧
      (convergence_signal ema < 0 ↔ ema < 1/5))) ∧
    (ema < 0 → 0 < convergence_signal ema) := by
  refine ⟨rfl, ?_, fun hp => ⟨?_, ?_⟩, fun hn => ?_⟩
  · unfold convergence_signal
    rw [div_eq_zero_iff]
    constructor
    · rintro (h3 | h0)
      · linarith
      · exact absurd h0 h
    · intro he; left; rw [he]; ring
  · unfold convergence_signal
    rw [div_pos_iff]
    constructor
    · rintro (⟨h3, -⟩ | ⟨-, hb⟩)
      · linarith
      · linarith
    · intro hg; exact Or.inl ⟨by linarith, hp⟩
  · unfold convergence_signal
    rw [div_neg_iff]
    constructor
    · rintro (⟨-, hb⟩ | ⟨h3, -⟩)
      · linarith
      · linarith
    · intro hl; exact Or.inr ⟨by linarith, hp⟩
  · unfold convergence_signal
    rw [div_pos_iff]
    exact Or.inr ⟨by linarith, hn⟩

/-- Witness for the amended C7 at `ema = 0.48`. -/
theorem convergence_signal_props_witness :
    convergence_signal (12/25) = 3 * ((12/25 : ℚ) - 1/5) / (12/25) ∧
    (convergence_signal (12/25) = 0 ↔ (12/25 : ℚ) = 1/5) ∧
    ((0 : ℚ) < 12/25 → ((0 < convergence_signal (12/25) ↔ (1/5 : ℚ) < 12/25) ∧
      (convergence_signal (12/25) < 0 ↔ (12/25 : ℚ) < 1/5))) ∧
    ((12/25 : ℚ) < 0 → 0 < convergence_signal (12/25)) :=
  convergence_signal_props (12/25) (by norm_num)

theorem dot_self_nonneg (g : List ℚ) : 0 ≤ dot g g := by
  induction g with
  | nil => simp [dot]
  | cons a t ih =>
    have : dot (a :: t) (a :: t) = a * a + dot t t := by simp [dot]
    rw [this]
    nlinarith [mul_self_nonneg a]

theorem dot_self_pos (g : List ℚ) (hg : ∃ x ∈ g, x ≠ 0) : 0 < dot g g := by
  induction g with
  | nil => simp at hg
  | cons a t ih =>
    have hcons : dot (a :: t) (a :: t) = a * a + dot t t := by simp [dot]
    rw [hcons]
    rcases hg with ⟨x, hx, hxne⟩
    rcases List.mem_cons.mp hx with rfl | hxt
    · have h1 : 0 < x * x := mul_self_pos.mpr hxne
      have h2 : 0 ≤ dot t t := dot_self_nonneg t
      linarith
    · have h1 : 0 < dot t t := ih ⟨x, hxt, hxne⟩
      have h2 : 0 ≤ a * a := mul_self_nonneg a
      linarith

/-- C8: the alignment signal is
`1 - dot(grad_base, grad_novel) / squared_norm(grad_base)`; for nonzero `g`
the signal for `(g, g)` is 0, and whenever `dot(g, h) = 0` (with `g`
nonzero) the signal is 1. -/
theorem angle_signal_bounds (g h : List ℚ) (hg : ∃ x ∈ g, x ≠ 0) :
    angle_signal g h = 1 - dot g h / sqnorm g ∧
    angle_signal g g = 0 ∧
    (dot g h = 0 → angle_signal g h = 1) := by
  have hpos : 0 < dot g g := dot_self_pos g hg
  refine ⟨rfl, ?_, fun h0 => ?_⟩
  · unfold angle_signal sqnorm
    rw [div_self (ne_of_gt hpos)]
    ring
  · unfold angle_signal sqnorm
    rw [h0, zero_div]
    ring

/-- Witness for C8 at `g = [1, 0]`, `h = [0, 1]` (orthogonal pair). -/
theorem angle_signal_bounds_witness :
    angle_signal [(1 : ℚ), 0] [0, 1] = 1 - dot [(1 : ℚ), 0] [0, 1] / sqnorm [(1 : ℚ), 0] ∧
    angle_signal [(1 : ℚ), 0] [(1 : ℚ), 0] = 0 ∧
    (dot [(1 : ℚ), 0] [0, 1] = 0 → angle_signal [(1 : ℚ), 0] [0, 1] = 1) :=
  angle_signal_bounds [(1 : ℚ), 0] [0, 1] ⟨1, by simp, one_ne_zero⟩

/-- C5: flatten-after-assign round trip.  The hypotheses formalize the data
model at capture time: running-statistic entries carry no gradient, every
entry that carries a gradient is a parameter (so `assign_grads` and
`flatten_grads` agree on which entries they touch), and the vector's length
equals the total scalar count of the entries currently carrying a gradient.
Then assignment consumes the whole vector without a slice failure and
re-flattening returns it element-wise. -/
theorem flatten_assign_roundtrip : ∀ (s : Store) (v : List ℚ),
    (∀ e ∈ s, e.statName = true → e.grad = none) →
    (∀ e ∈ s, e.grad.isSome = true → e.isParam = true) →
    v.length = gradScalarCount s →
    (assign_grads s v).2 = true ∧ flatten_grads (assign_grads s v).1 = v := by
  intro s
  induction s with
  | nil =>
    intro v h1 h2 hlen
    have hv : v = [] := List.length_eq_zero.mp (by simpa [gradScalarCount] using hlen)
    subst hv
    exact ⟨rfl, rfl⟩
  | cons e es ih =>
    intro v hstat hparam hlen
    have hstatT : ∀ a ∈ es, a.statName = true → a.grad = none :=
      fun a ha => hstat a (List.mem_cons_of_mem e ha)
    have hparamT : ∀ a ∈ es, a.grad.isSome = true → a.isParam = true :=
      fun a ha => hparam a (List.mem_cons_of_mem e ha)
    cases he : e.grad with
    | none =>
      have hcount : gradScalarCount (e :: es) = gradScalarCount es := by
        simp [gradScalarCount, he]
      obtain ⟨ha, hf⟩ := ih v hstatT hparamT (hcount ▸ hlen)
      have hni : e.grad.isNone = true := by simp [he]
      refine ⟨by simp [assign_grads, hni, ha], ?_⟩
      simp [assign_grads, hni, flatten_grads, he] at hf ⊢
      exact hf
    | some g =>
      have hsf : e.statName = false := by
        cases hst : e.statName
        · rfl
        · have := hstat e (List.mem_cons_self e es) hst
          rw [he] at this
          cases this
      have hpt : e.isParam = true :=
        hparam e (List.mem_cons_self e es) (by simp [he])
      have hcount : gradScalarCount (e :: es) = e.size + gradScalarCount es := by
        simp [gradScalarCount, he]
      have hsz : e.size ≤ v.length := by
        rw [hlen, hcount]; exact Nat.le_add_right _ _
      have hlen' : (v.drop e.size).length = gradScalarCount es := by
        rw [List.length_drop, hlen, hcount]; omega
      obtain ⟨ha, hf⟩ := ih (v.drop e.size) hstatT hparamT hlen'
      have hni : e.grad.isNone = false := by simp [he]
      refine ⟨by simp [assign_grads, hni, hsf, hsz, ha], ?_⟩
      simp [assign_grads, hni, hsf, hsz, flatten_grads, hpt] at hf ⊢
      rw [hf]
      exact List.take_append_drop e.size v

def rtStore : Store :=
  [{ isParam := true, statName := false, size := 2, value := [5, 6],
     grad := some [0, 0] },
   { isParam := false, statName := true, size := 1, value := [3],
     grad := none },
   { isParam := true, statName := false, size := 1, value := [4],
     grad := some [9] }]

/-- Witness for C5: a three-entry store (two gradient-bearing parameters
around a batch-norm statistic buffer) and the vector `[1, 2, 3]`. -/
theorem flatten_assign_roundtrip_witness :
    (assign_grads rtStore [1, 2, 3]).2 = true ∧
    flatten_grads (assign_grads rtStore [1, 2, 3]).1 = [1, 2, 3] :=
  flatten_assign_roundtrip rtStore [1, 2, 3] (by decide) (by decide) (by decide)

end DLW
